import Mathlib

/-!
Verification of `src/generative/normalizing_flow.py` (DeepNetworks).

Shallow embedding: a TensorFlow tensor is embedded as an index function to `ℝ`
(`Tensor1`, `Tensor2`, `Tensor3` for rank 1, 2, 3); shapes are carried
separately as explicit natural-number extents where an operation depends on
them (the summation range of a matmul, the offset of a slice, the split point
of a concat).  Elementwise TF ops (`tanh`, `softplus`, `log`, `abs`, `pow`)
become the corresponding real functions.  Broadcasting is written out
explicitly at each use site, following the shapes that occur in the source.
-/

namespace NormalizingFlow

noncomputable section

abbrev Tensor1 := ℕ → ℝ

abbrev Tensor2 := ℕ → ℕ → ℝ

abbrev Tensor3 := ℕ → ℕ → ℕ → ℝ

/-- Embeds `tf.nn.softplus`: `softplus x = log (1 + exp x)`. -/
def softplus (x : ℝ) : ℝ := Real.log (1 + Real.exp x)

/-- Dot product of the first `n` entries of two rank-1 tensors.  This is the
value computed by `tf.reduce_sum(a * b, axis=1)` on one row, and by the
matmuls in `PlanarFlow` (the feature extent `n` is the tensors' width). -/
def dot (x y : Tensor1) (n : ℕ) : ℝ := ∑ i ∈ Finset.range n, x i * y i

/-- Embeds `tf.matmul(A, B, transpose_b=True)` for rank-2 tensors with
contraction extent `k` (the shared width of `A` and `B`). -/
def tfMatmulTB (A B : Tensor2) (k : ℕ) : Tensor2 :=
  fun i j => ∑ r ∈ Finset.range k, A i r * B j r

/-- Embeds batched `tf.matmul` on rank-3 tensors (leading axis paired),
with contraction extent `k`. -/
def tfMatmulBatch (X W : Tensor3) (k : ℕ) : Tensor3 :=
  fun f i j => ∑ r ∈ Finset.range k, X f i r * W f r j

/-- Embeds `tf.expand_dims(w, 2)` on a rank-2 tensor: a trailing axis of
size 1 is added, so the new last index is ignored. -/
def tfExpandDims2 (w : Tensor2) : Tensor3 := fun f d _z => w f d

/-- Embedding of the class `PlanarFlow` of `normalizing_flow.py`.

The fields mirror the attributes set in `__init__`: the feature width
`dim`, the number of parallel flows `n_flows` (in the source this is the
ghost shape `u.shape[0]`; here it is carried as data), and the parameter
tensors `w : [n_flows, dim]`, `b : [n_flows]`, `u : [n_flows, dim]`. -/
structure PlanarFlow where
  dim : ℕ
  n_flows : ℕ
  w : Tensor2
  b : Tensor1
  u : Tensor2

instance : Inhabited PlanarFlow := ⟨⟨0, 0, fun _ _ => 0, fun _ => 0, fun _ _ => 0⟩⟩

instance : Inhabited Tensor2 := ⟨fun _ _ => 0⟩

/-- Embeds `PlanarFlow.reversible_constraint` (lines 47-52):
`dot = reduce_sum(u * w, axis=1, keepdims=True)`;
`scalar = -1 + softplus(dot) - dot`;
`norm_squared = reduce_sum(w * w, axis=1, keepdims=True)`;
returns `u + scalar * w / norm_squared`, all per flow row `f`. -/
def PlanarFlow.reversible_constraint (pf : PlanarFlow) : Tensor2 :=
  fun f d =>
    pf.u f d +
      (-1 + softplus (dot (pf.u f) (pf.w f) pf.dim) - dot (pf.u f) (pf.w f) pf.dim)
        * pf.w f d / dot (pf.w f) (pf.w f) pf.dim

/-- The attribute `self.u_bar = self.reversible_constraint()` set in
`PlanarFlow.__init__` (line 30). -/
def PlanarFlow.u_bar (pf : PlanarFlow) : Tensor2 := pf.reversible_constraint

/-- Embeds the `is_single_flow` branch of `PlanarFlow.transform`
(lines 63-65): `dialation = matmul(inputs, w, transpose_b=True) + b` (shape
`[N, 1]`, with `b` of shape `[1]` broadcast), result
`inputs + u_bar * tanh(dialation)` (broadcast of `u_bar : [1, dim]` against
`tanh(dialation) : [N, 1]`). -/
def PlanarFlow.transform_single (pf : PlanarFlow) (inputs : Tensor2) : Tensor2 :=
  fun j d =>
    inputs j d + pf.u_bar 0 d * Real.tanh (tfMatmulTB inputs pf.w pf.dim j 0 + pf.b 0)

/-- Embeds the multi-flow branch of `PlanarFlow.transform` (lines 66-69):
`dialation = matmul(inputs, expand_dims(w, 2)) + expand_dims(expand_dims(b,1),2)`
(shape `[n_flows, N, 1]`), result
`inputs + expand_dims(u_bar, 1) * tanh(dialation)`. -/
def PlanarFlow.transform_multi (pf : PlanarFlow) (inputs : Tensor3) : Tensor3 :=
  fun f j d =>
    inputs f j d +
      pf.u_bar f d *
        Real.tanh (tfMatmulBatch inputs (tfExpandDims2 pf.w) pf.dim f j 0 + pf.b f)

/-- Embeds the `is_single_flow` branch of `PlanarFlow.log_det_jacobian`
(lines 80-84): `dialation` as in `transform_single`;
`psi = 1 - tanh(dialation)^2`; `det_jac = matmul(u_bar, w, transpose_b=True) * psi`
(broadcast of the `[1,1]` matmul against `psi : [N,1]`);
result `-log |1 + det_jac|` squeezed, so the batch index `j` remains and the
trailing size-1 axis is read at index 0. -/
def PlanarFlow.log_det_jacobian_single (pf : PlanarFlow) (inputs : Tensor2) : Tensor1 :=
  fun j =>
    - Real.log
        |1 + tfMatmulTB pf.u_bar pf.w pf.dim 0 0 *
          (1 - Real.tanh (tfMatmulTB inputs pf.w pf.dim j 0 + pf.b 0) ^ 2)|

/-- Embeds the multi-flow branch of `PlanarFlow.log_det_jacobian`
(lines 85-92): `dialation` as in `transform_multi`; `psi = 1 - tanh(dialation)^2`;
`dot = reduce_sum(u_bar * w, axis=1, keepdims=True)` then `expand_dims(dot, 1)`
(per-flow scalar broadcast over the batch axis); `det_jac = dot * psi`;
result `-log |1 + det_jac|` squeezed along the trailing size-1 axis. -/
def PlanarFlow.log_det_jacobian_multi (pf : PlanarFlow) (inputs : Tensor3) : Tensor2 :=
  fun f j =>
    - Real.log
        |1 + (∑ r ∈ Finset.range pf.dim, pf.u_bar f r * pf.w f r) *
          (1 - Real.tanh (tfMatmulBatch inputs (tfExpandDims2 pf.w) pf.dim f j 0 + pf.b f) ^ 2)|

/-- Claim C1: for every PlanarFlow and input of the documented shape,
`log_det_jacobian(x)` returns `-log|1 + dot(u_bar,w) * (1 - tanh(x·wᵗ+b)²)|`,
with the dot product and dilation computed per flow row in multi-flow mode
(each entry `(f, j)` depends only on row `f` of `w`, `b`, `u_bar`). -/
theorem claim_C1 (pf : PlanarFlow) :
    (∀ (x : Tensor2) (j : ℕ),
      pf.log_det_jacobian_single x j =
        - Real.log
            |1 + dot (pf.u_bar 0) (pf.w 0) pf.dim *
              (1 - Real.tanh (dot (x j) (pf.w 0) pf.dim + pf.b 0) ^ 2)|) ∧
    (∀ (x : Tensor3) (f j : ℕ),
      pf.log_det_jacobian_multi x f j =
        - Real.log
            |1 + dot (pf.u_bar f) (pf.w f) pf.dim *
              (1 - Real.tanh (dot (x f j) (pf.w f) pf.dim + pf.b f) ^ 2)|) := by
  constructor
  · intro x j
    rfl
  · intro x f j
    rfl

/-- Claim C4: for every PlanarFlow and input of the documented shape,
`transform(x)` returns `x + u_bar * tanh(x·wᵗ + b)`; in multi-flow mode each
flow's own parameter row acts only on its own slice of the input. -/
theorem claim_C4 (pf : PlanarFlow) :
    (∀ (x : Tensor2) (j d : ℕ),
      pf.transform_single x j d =
        x j d + pf.u_bar 0 d * Real.tanh (dot (x j) (pf.w 0) pf.dim + pf.b 0)) ∧
    (∀ (x : Tensor3) (f j d : ℕ),
      pf.transform_multi x f j d =
        x f j d + pf.u_bar f d * Real.tanh (dot (x f j) (pf.w f) pf.dim + pf.b f)) := by
  constructor
  · intro x j d
    rfl
  · intro x f j d
    rfl

/-- Softplus is nonnegative: `log (1 + exp x) ≥ log 1 = 0`. -/
lemma softplus_nonneg (x : ℝ) : 0 ≤ softplus x := by
  have hx := Real.exp_pos x
  exact Real.log_nonneg (by linarith)

/-- For a flow row with nonzero squared norm, the inner product of the
corrected vector `u_bar` with `w` collapses to `softplus (dot u w) - 1`. -/
lemma dot_u_bar_eq (pf : PlanarFlow) (f : ℕ)
    (h : dot (pf.w f) (pf.w f) pf.dim ≠ 0) :
    dot (pf.u_bar f) (pf.w f) pf.dim =
      softplus (dot (pf.u f) (pf.w f) pf.dim) - 1 := by
  have expand :
      dot (pf.u_bar f) (pf.w f) pf.dim =
        dot (pf.u f) (pf.w f) pf.dim +
          ((-1 + softplus (dot (pf.u f) (pf.w f) pf.dim) -
              dot (pf.u f) (pf.w f) pf.dim) / dot (pf.w f) (pf.w f) pf.dim) *
            dot (pf.w f) (pf.w f) pf.dim := by
    simp only [dot, PlanarFlow.u_bar, PlanarFlow.reversible_constraint]
    rw [Finset.mul_sum, ← Finset.sum_add_distrib]
    refine Finset.sum_congr rfl fun i _ => ?_
    ring
  rw [expand, div_mul_cancel₀ _ h]
  ring

/-- Claim C3: for every constructed PlanarFlow whose `w` row has nonzero
squared norm, the corrected vector `u_bar = reversible_constraint()` satisfies
`dot (u_bar, w) ≥ -1` on every one of its `n_flows` parameter rows. -/
theorem claim_C3 (pf : PlanarFlow) (f : ℕ)
    (h : dot (pf.w f) (pf.w f) pf.dim ≠ 0) :
    -1 ≤ dot (pf.u_bar f) (pf.w f) pf.dim := by
  rw [dot_u_bar_eq pf f h]
  have := softplus_nonneg (dot (pf.u f) (pf.w f) pf.dim)
  linarith

/-- A concrete single-flow PlanarFlow with `dim = 1`, `w = [[1]]`, `b = [0]`,
`u = [[2]]`, used as a witness instance. -/
def pfUnit : PlanarFlow := ⟨1, 1, fun _ _ => 1, fun _ => 0, fun _ _ => 2⟩

/-- Witness for claim C3 at the concrete flow `pfUnit` (row 0). -/
theorem claim_C3_witness :
    dot (pfUnit.w 0) (pfUnit.w 0) pfUnit.dim ≠ 0 ∧
      -1 ≤ dot (pfUnit.u_bar 0) (pfUnit.w 0) pfUnit.dim := by
  have h : dot (pfUnit.w 0) (pfUnit.w 0) pfUnit.dim ≠ 0 := by
    simp [dot, pfUnit]
  exact ⟨h, claim_C3 pfUnit 0 h⟩

/-- A PlanarFlow whose `w` row is the zero vector (`dim = 2`), the degenerate
input of claim C8. -/
def pfDegenerate : PlanarFlow := ⟨2, 1, fun _ _ => 0, fun _ => 0, fun _ _ => 1⟩

/-- Claim C8 (code evaluation at the failing input): the source performs no
validation, so constructing a PlanarFlow with a zero-norm `w` row succeeds and
`reversible_constraint` divides by the zero squared norm instead of raising a
"degenerate flow parameter" error.  In this real-number embedding the junk
quotient `0 / 0` is `0`, so `u_bar` silently equals `u`; in the floating-point
source the same expression evaluates `scalar * 0 / 0`, propagating NaN. -/
theorem claim_C8 :
    dot (pfDegenerate.w 0) (pfDegenerate.w 0) pfDegenerate.dim = 0 ∧
      pfDegenerate.u_bar = pfDegenerate.u := by
  constructor
  · simp [dot, pfDegenerate]
  · funext f d
    simp [PlanarFlow.u_bar, PlanarFlow.reversible_constraint, pfDegenerate]

/-- Embeds the shape semantics of `tf.squeeze` with no axis argument: every
axis of size 1 is removed from the shape. -/
def tfSqueezeShape (s : List ℕ) : List ℕ := s.filter (fun d => d != 1)

/-- Shape of the value returned by the single-flow branch of
`PlanarFlow.log_det_jacobian` on an input of shape `[N, dim]`: the tensor
inside `tf.squeeze` has shape `[N, 1]` (a matmul against `w : [1, dim]`
transposed), and `tf.squeeze` is applied to it. -/
def PlanarFlow.log_det_jacobian_shape_single (N : ℕ) : List ℕ :=
  tfSqueezeShape [N, 1]

/-- Shape of the value returned by the multi-flow branch of
`PlanarFlow.log_det_jacobian` on an input of shape `[nF, N, dim]`: the tensor
inside `tf.squeeze` has shape `[nF, N, 1]`. -/
def PlanarFlow.log_det_jacobian_shape_multi (nF N : ℕ) : List ℕ :=
  tfSqueezeShape [nF, N, 1]

/-- Counterexample to claim C7 as stated: for a batch dimension of size 1 the
single-flow branch returns a scalar (shape `[]`), not shape `[1]`, because
`tf.squeeze` removes every size-1 axis, the batch axis included. -/
theorem claim_C7_counterexample :
    PlanarFlow.log_det_jacobian_shape_single 1 ≠ [1] := by
  decide

/-- Claim C7 (amended): `log_det_jacobian(x)` returns a tensor whose shape is
the batch shape of `x` with the feature axis removed, provided no batch
dimension equals 1 (a size-1 batch dimension is removed by `tf.squeeze` as
well); in the multi-flow branch the leading dimension `nF` exceeds 1 by the
branch condition. -/
theorem claim_C7 (N nF : ℕ) (hN : N ≠ 1) (hF : nF ≠ 1) :
    PlanarFlow.log_det_jacobian_shape_single N = [N] ∧
      PlanarFlow.log_det_jacobian_shape_multi nF N = [nF, N] := by
  constructor
  · simp [PlanarFlow.log_det_jacobian_shape_single, tfSqueezeShape, hN]
  · simp [PlanarFlow.log_det_jacobian_shape_multi, tfSqueezeShape, hN, hF]

/-- Witness for the amended claim C7 at batch size 2 with 3 parallel flows. -/
theorem claim_C7_witness :
    (2 ≠ 1 ∧ 3 ≠ 1) ∧
      PlanarFlow.log_det_jacobian_shape_single 2 = [2] ∧
        PlanarFlow.log_det_jacobian_shape_multi 3 2 = [3, 2] :=
  ⟨⟨by decide, by decide⟩, claim_C7 2 3 (by decide) (by decide)⟩

/-- Embeds the loop of `FlowRandomVariable.sample_log_prob` (lines 158-161):
`for flow in self.flows: log_prob += flow.log_det_jacobian(samples);
samples = flow.transform(samples)`, in the single-flow regime (rank-2
samples). -/
def FlowRandomVariable.sample_log_prob_loop :
    List PlanarFlow → Tensor2 → Tensor1 → Tensor2 × Tensor1
  | [], samples, log_prob => (samples, log_prob)
  | f :: rest, samples, log_prob =>
      FlowRandomVariable.sample_log_prob_loop rest (f.transform_single samples)
        (fun j => log_prob j + f.log_det_jacobian_single samples j)

/-- The sample sequence of the change-of-variables recurrence:
`s_0` is the base sample, `s_{i+1} = f_{i+1}.transform(s_i)`. -/
def flowState (flows : List PlanarFlow) (s0 : Tensor2) : ℕ → Tensor2
  | 0 => s0
  | i + 1 => (flows.getD i default).transform_single (flowState flows s0 i)

/-- The log-probability sequence of the change-of-variables recurrence:
`p_0` is the base log-density,
`p_{i+1} = p_i + f_{i+1}.log_det_jacobian(s_i)` — the Jacobian term is
evaluated at the pre-transform sample `s_i`. -/
def flowLogp (flows : List PlanarFlow) (s0 : Tensor2) (p0 : Tensor1) : ℕ → Tensor1
  | 0 => p0
  | i + 1 => fun j =>
      flowLogp flows s0 p0 i j +
        (flows.getD i default).log_det_jacobian_single (flowState flows s0 i) j

lemma flowState_cons (f : PlanarFlow) (rest : List PlanarFlow) (s0 : Tensor2) :
    ∀ i, flowState (f :: rest) s0 (i + 1) = flowState rest (f.transform_single s0) i := by
  intro i
  induction i with
  | zero => rfl
  | succ i ih =>
      show (rest.getD i default).transform_single (flowState (f :: rest) s0 (i + 1)) = _
      rw [ih]
      rfl

lemma flowLogp_cons (f : PlanarFlow) (rest : List PlanarFlow) (s0 : Tensor2) (p0 : Tensor1) :
    ∀ i, flowLogp (f :: rest) s0 p0 (i + 1) =
      flowLogp rest (f.transform_single s0)
        (fun j => p0 j + f.log_det_jacobian_single s0 j) i := by
  intro i
  induction i with
  | zero => rfl
  | succ i ih =>
      show (fun j => flowLogp (f :: rest) s0 p0 (i + 1) j +
          (rest.getD i default).log_det_jacobian_single (flowState (f :: rest) s0 (i + 1)) j) = _
      rw [ih, flowState_cons]
      rfl

/-- The loop of `sample_log_prob` computes exactly the recurrence
`(s_k, p_k)` over all `k = flows.length` layers. -/
lemma sample_log_prob_loop_eq (flows : List PlanarFlow) :
    ∀ (s0 : Tensor2) (p0 : Tensor1),
      FlowRandomVariable.sample_log_prob_loop flows s0 p0 =
        (flowState flows s0 flows.length, flowLogp flows s0 p0 flows.length) := by
  induction flows with
  | nil => intro s0 p0; rfl
  | cons f rest ih =>
      intro s0 p0
      show FlowRandomVariable.sample_log_prob_loop rest (f.transform_single s0)
          (fun j => p0 j + f.log_det_jacobian_single s0 j) = _
      rw [ih]
      rw [show (f :: rest).length = rest.length + 1 from rfl]
      rw [flowState_cons, flowLogp_cons]

/-- Claim C2: for every list of flow layers, base samples `s_0` and base
log-density `p_0`, the loop of `FlowRandomVariable.sample_log_prob` returns
`(s_k, p_k)` where for each `i` in order `p_i = p_{i-1} +
f_i.log_det_jacobian(s_{i-1})` and `s_i = f_i.transform(s_{i-1})`: each
layer's log-det-Jacobian is evaluated at that layer's pre-transform input,
then the transform is applied. -/
theorem claim_C2 (flows : List PlanarFlow) (s0 : Tensor2) (p0 : Tensor1) :
    FlowRandomVariable.sample_log_prob_loop flows s0 p0 =
      (flowState flows s0 flows.length, flowLogp flows s0 p0 flows.length) :=
  sample_log_prob_loop_eq flows s0 p0

/-- Embedding of the class `FlowRandomVariable` (lines 95-127).  The field
`num_layrs` mirrors the misspelled attribute name assigned in the
explicitly-supplied-flows branch of `__init__` (line 127); the correctly
spelled `num_layers` attribute keeps the constructor argument. -/
structure FlowRandomVariable where
  dim : ℕ
  num_layers : ℕ
  num_layrs : ℕ
  flows : List PlanarFlow

/-- Embeds the `flows is not None` branch of `FlowRandomVariable.__init__`:
`self.num_layers` keeps the constructor argument (default 1) and only
`self.num_layrs` (sic) receives `len(self.flows)`. -/
def FlowRandomVariable.mk_with_flows (dim num_layers : ℕ)
    (flows : List PlanarFlow) : FlowRandomVariable :=
  ⟨dim, num_layers, flows.length, flows⟩

/-- Embeds `tf.concat(_, axis=1)` of a list of rank-2 tensors that all have
column width `width`. -/
def tfConcatCols (width : ℕ) : List Tensor2 → Tensor2
  | [] => fun _ _ => 0
  | p :: ps => fun j d =>
      if d < width then p j d else tfConcatCols width ps j (d - width)

/-- Embeds `tf.concat(_, axis=0)` of a list of rank-1 tensors that all have
length `len`. -/
def tfConcatRows1 (len : ℕ) : List Tensor1 → Tensor1
  | [] => fun _ => 0
  | p :: ps => fun i =>
      if i < len then p i else tfConcatRows1 len ps (i - len)

/-- Embeds `FlowRandomVariable.get_all_flow_params` (lines 129-142): the `w`
and `u` tensors of `self.flows[i]` for `i in range(self.num_layers)` are
concatenated along axis 1 (each of width `dim`), the `b` tensors along
axis 0 (each of length `n_flows`). -/
def FlowRandomVariable.get_all_flow_params (v : FlowRandomVariable) :
    Tensor2 × Tensor2 × Tensor1 :=
  ((tfConcatCols v.dim ((List.range v.num_layers).map
      (fun i => (v.flows.getD i default).w))),
   (tfConcatCols v.dim ((List.range v.num_layers).map
      (fun i => (v.flows.getD i default).u))),
   (tfConcatRows1 ((v.flows.getD 0 default).n_flows) ((List.range v.num_layers).map
      (fun i => (v.flows.getD i default).b))))

lemma getD_take {α : Type} (L : List α) :
    ∀ (n i : ℕ) (d : α), i < n → (L.take n).getD i d = L.getD i d := by
  induction L with
  | nil => intro n i d _; simp
  | cons a L ih =>
      intro n i d h
      cases n with
      | zero => omega
      | succ n =>
          cases i with
          | zero => rfl
          | succ i =>
              show (L.take n).getD i d = L.getD i d
              exact ih n i d (by omega)

/-- Claim C10: for a `FlowRandomVariable` built with an explicitly supplied
flows list `L`, the stored `num_layers` keeps the constructor argument `n`
rather than `L.length` (only the misspelled `num_layrs` gets `L.length`);
consequently `get_all_flow_params` reads only the first `n` flows — it agrees
with the variable built from `L.take n` — even though the
`sample_log_prob` loop applies every flow of `L`. -/
theorem claim_C10 (dim n : ℕ) (L : List PlanarFlow) (hn : n ≤ L.length) :
    (FlowRandomVariable.mk_with_flows dim n L).num_layers = n ∧
      (FlowRandomVariable.mk_with_flows dim n L).num_layrs = L.length ∧
      (FlowRandomVariable.mk_with_flows dim n L).get_all_flow_params =
        (FlowRandomVariable.mk_with_flows dim n (L.take n)).get_all_flow_params ∧
      ∀ (s0 : Tensor2) (p0 : Tensor1),
        FlowRandomVariable.sample_log_prob_loop
            (FlowRandomVariable.mk_with_flows dim n L).flows s0 p0 =
          (flowState L s0 L.length, flowLogp L s0 p0 L.length) := by
  refine ⟨rfl, rfl, ?_, ?_⟩
  · have hmap : ∀ {β : Type} (pick : PlanarFlow → β),
        (List.range n).map (fun i => pick ((L.take n).getD i default)) =
          (List.range n).map (fun i => pick (L.getD i default)) := by
      intro β pick
      refine List.map_congr_left fun i hi => ?_
      rw [getD_take L n i default (List.mem_range.mp hi)]
    have hget0 : (L.take n).getD 0 default = L.getD 0 default ∨ n = 0 := by
      rcases Nat.eq_zero_or_pos n with h0 | h0
      · exact Or.inr h0
      · exact Or.inl (getD_take L n 0 default h0)
    simp only [FlowRandomVariable.get_all_flow_params, FlowRandomVariable.mk_with_flows]
    rcases hget0 with hg | h0
    · rw [hmap (fun f => f.w), hmap (fun f => f.u), hmap (fun f => f.b), hg]
    · subst h0
      rfl
  · intro s0 p0
    exact sample_log_prob_loop_eq L s0 p0

/-- Witness for claim C10: a two-flow list with `num_layers = 1`. -/
theorem claim_C10_witness :
    1 ≤ [pfUnit, pfDegenerate].length ∧
      ((FlowRandomVariable.mk_with_flows 1 1 [pfUnit, pfDegenerate]).num_layers = 1 ∧
        (FlowRandomVariable.mk_with_flows 1 1 [pfUnit, pfDegenerate]).num_layrs =
          [pfUnit, pfDegenerate].length ∧
        (FlowRandomVariable.mk_with_flows 1 1 [pfUnit, pfDegenerate]).get_all_flow_params =
          (FlowRandomVariable.mk_with_flows 1 1
            ([pfUnit, pfDegenerate].take 1)).get_all_flow_params ∧
        ∀ (s0 : Tensor2) (p0 : Tensor1),
          FlowRandomVariable.sample_log_prob_loop
              (FlowRandomVariable.mk_with_flows 1 1 [pfUnit, pfDegenerate]).flows s0 p0 =
            (flowState [pfUnit, pfDegenerate] s0 [pfUnit, pfDegenerate].length,
             flowLogp [pfUnit, pfDegenerate] s0 p0 [pfUnit, pfDegenerate].length)) :=
  ⟨by simp, claim_C10 1 1 [pfUnit, pfDegenerate] (by simp)⟩

/-- Embeds `tf.slice(t, [0, start], [-1, len])` on a rank-2 tensor: columns
from `start` on (the extent `len` lives at the shape level). -/
def tfSliceCols (t : Tensor2) (start : ℕ) : Tensor2 := fun j d => t j (start + d)

/-- Embeds `tf.concat([a, b], axis=1)` of two rank-2 tensors where `a` has
column width `width`. -/
def tfConcatPair (width : ℕ) (a b : Tensor2) : Tensor2 :=
  fun j d => if d < width then a j d else b j (d - width)

/-- Embeds the inner layer loop of `DynaFlowRandomVariable.sample_log_prob`
(lines 253-255): `for layer in time_flow: log_prob +=
layer.log_det_jacobian(latent_pair); latent_pair = layer.transform(latent_pair)`. -/
def applyTimeFlow : List PlanarFlow → Tensor2 → Tensor1 → Tensor2 × Tensor1
  | [], pair, log_prob => (pair, log_prob)
  | f :: rest, pair, log_prob =>
      applyTimeFlow rest (f.transform_single pair)
        (fun j => log_prob j + f.log_det_jacobian_single pair j)

/-- The transform part of `applyTimeFlow`, as a fold. -/
def applyTimeFlowT (stack : List PlanarFlow) (pair : Tensor2) : Tensor2 :=
  stack.foldl (fun p f => f.transform_single p) pair

lemma applyTimeFlow_fst (stack : List PlanarFlow) :
    ∀ (pair : Tensor2) (log_prob : Tensor1),
      (applyTimeFlow stack pair log_prob).1 = applyTimeFlowT stack pair := by
  induction stack with
  | nil => intro pair lp; rfl
  | cons f rest ih => intro pair lp; exact ih (f.transform_single pair) _

/-- Embeds the time loop of `DynaFlowRandomVariable.sample_log_prob`
(lines 246-262): at adjacent-pair index `i` the current time step's `dim`
columns are sliced out of the joint base sample, concatenated behind the
carried `pre_latent`, passed through that index's layer stack, the first half
appended to the output pieces and the second half carried forward; when the
stacks run out the final carried `pre_latent` becomes the last piece. -/
def DynaFlowRandomVariable.sample_pieces (dim : ℕ) (samples : Tensor2) :
    List (List PlanarFlow) → ℕ → Tensor2 → Tensor1 → List Tensor2 × Tensor1
  | [], _i, pre_latent, log_prob => ([pre_latent], log_prob)
  | time_flow :: rest, i, pre_latent, log_prob =>
      let cur_latent := tfSliceCols samples ((i + 1) * dim)
      let res := applyTimeFlow time_flow (tfConcatPair dim pre_latent cur_latent) log_prob
      let tail := DynaFlowRandomVariable.sample_pieces dim samples rest (i + 1)
        (tfSliceCols res.1 dim) res.2
      (tfSliceCols res.1 0 :: tail.1, tail.2)

/-- Embeds `DynaFlowRandomVariable.sample_log_prob` (lines 240-265) given the
joint base sample and its summed base log-density: runs the time loop starting
from `pre_latent = samples[:, 0:dim]` and concatenates the per-time pieces
along axis 1. -/
def DynaFlowRandomVariable.sample_log_prob (dim : ℕ) (flows : List (List PlanarFlow))
    (samples : Tensor2) (log_prob : Tensor1) : Tensor2 × Tensor1 :=
  let res := DynaFlowRandomVariable.sample_pieces dim samples flows 0
    (tfSliceCols samples 0) log_prob
  (tfConcatCols dim res.1, res.2)

/-- The chain of `pre_latent` inputs of the spec recurrence: `preAt 0` is the
first time step of the base sample; `preAt (t+1)` is the second half of the
transformed latent pair at adjacent-pair index `t`. -/
def preAt (dim : ℕ) (samples : Tensor2) (flows : List (List PlanarFlow)) : ℕ → Tensor2
  | 0 => tfSliceCols samples 0
  | t + 1 =>
      tfSliceCols
        (applyTimeFlowT (flows.getD t [])
          (tfConcatPair dim (preAt dim samples flows t)
            (tfSliceCols samples ((t + 1) * dim)))) dim

/-- The transformed latent pair at adjacent-pair index `t` of the spec
recurrence: the pair `(preAt t, samples[:, (t+1)*dim:(t+2)*dim])` pushed
through the layer stack of index `t`. -/
def pairAt (dim : ℕ) (samples : Tensor2) (flows : List (List PlanarFlow)) (t : ℕ) : Tensor2 :=
  applyTimeFlowT (flows.getD t [])
    (tfConcatPair dim (preAt dim samples flows t) (tfSliceCols samples ((t + 1) * dim)))

lemma preAt_succ (dim : ℕ) (samples : Tensor2) (flows : List (List PlanarFlow)) (t : ℕ) :
    preAt dim samples flows (t + 1) = tfSliceCols (pairAt dim samples flows t) dim := rfl

lemma getD_of_drop_eq_cons {α : Type} (L : List α) (i : ℕ) (a : α) (tl : List α) (d : α)
    (h : L.drop i = a :: tl) : L.getD i d = a := by
  have h1 : L[i]? = some a := by
    rw [← List.head?_drop, h]
    rfl
  simp [List.getD_eq_getElem?_getD, h1]

lemma drop_succ_of_drop_eq_cons {α : Type} (L : List α) (i : ℕ) (a : α) (tl : List α)
    (h : L.drop i = a :: tl) : L.drop (i + 1) = tl := by
  rw [← List.tail_drop, h]
  rfl

/-- The code's time loop, started at index `i` on the remaining suffix of the
stacks with the spec chain's `preAt i` carried in, produces exactly the spec
chain's pieces: the first halves of `pairAt i, pairAt (i+1), …` followed by
the final carried `pre_latent`. -/
lemma sample_pieces_eq (dim : ℕ) (samples : Tensor2) (flows : List (List PlanarFlow)) :
    ∀ (fs : List (List PlanarFlow)) (i : ℕ) (log_prob : Tensor1),
      fs = flows.drop i →
      (DynaFlowRandomVariable.sample_pieces dim samples fs i
          (preAt dim samples flows i) log_prob).1 =
        (List.range fs.length).map (fun t => tfSliceCols (pairAt dim samples flows (i + t)) 0)
          ++ [preAt dim samples flows (i + fs.length)] := by
  intro fs
  induction fs with
  | nil => intro i lp _; simp [DynaFlowRandomVariable.sample_pieces]
  | cons stack rest ih =>
      intro i lp hdrop
      have hstack : flows.getD i [] = stack :=
        getD_of_drop_eq_cons flows i stack rest [] hdrop.symm
      have hrest : flows.drop (i + 1) = rest :=
        drop_succ_of_drop_eq_cons flows i stack rest hdrop.symm
      show (tfSliceCols (applyTimeFlow stack
          (tfConcatPair dim (preAt dim samples flows i)
            (tfSliceCols samples ((i + 1) * dim))) lp).1 0 ::
        (DynaFlowRandomVariable.sample_pieces dim samples rest (i + 1)
          (tfSliceCols (applyTimeFlow stack
            (tfConcatPair dim (preAt dim samples flows i)
              (tfSliceCols samples ((i + 1) * dim))) lp).1 dim)
          (applyTimeFlow stack
            (tfConcatPair dim (preAt dim samples flows i)
              (tfSliceCols samples ((i + 1) * dim))) lp).2).1) = _
      rw [applyTimeFlow_fst]
      have hpair : applyTimeFlowT stack
          (tfConcatPair dim (preAt dim samples flows i)
            (tfSliceCols samples ((i + 1) * dim))) = pairAt dim samples flows i := by
        rw [pairAt, hstack]
      rw [hpair, ← preAt_succ]
      rw [ih (i + 1) _ hrest.symm]
      simp only [List.length_cons]
      rw [List.range_succ_eq_map]
      simp only [List.map_cons, List.map_map, List.cons_append]
      have harith : ∀ t : ℕ, i + 1 + t = i + (t + 1) := by omega
      have hmap2 : List.map ((fun t => tfSliceCols (pairAt dim samples flows (i + t)) 0) ∘ Nat.succ)
            (List.range rest.length) =
          List.map (fun t => tfSliceCols (pairAt dim samples flows (i + 1 + t)) 0)
            (List.range rest.length) := by
        refine List.map_congr_left fun t _ => ?_
        simp only [Function.comp, Nat.succ_eq_add_one]
        rw [← harith t]
      rw [hmap2, show i + (rest.length + 1) = i + 1 + rest.length from by omega]
      rfl

/-- Reading column `d` of `tf.concat(pieces, axis=1)` (equal piece width
`width`) yields entry `d % width` of piece `d / width`. -/
lemma tfConcatCols_getD (width : ℕ) (hw : 0 < width) :
    ∀ (ps : List Tensor2) (j d : ℕ), d < width * ps.length →
      tfConcatCols width ps j d = (ps.getD (d / width) default) j (d % width) := by
  intro ps
  induction ps with
  | nil => intro j d h; simp at h
  | cons p ps ih =>
      intro j d h
      show (if d < width then p j d else tfConcatCols width ps j (d - width)) = _
      by_cases hd : d < width
      · rw [if_pos hd, Nat.div_eq_of_lt hd, Nat.mod_eq_of_lt hd]
        rfl
      · have hle : width ≤ d := by omega
        have hbound : d - width < width * ps.length := by
          rw [List.length_cons, Nat.mul_add, Nat.mul_one] at h
          omega
        rw [if_neg hd, ih j (d - width) hbound,
          Nat.div_eq_sub_div hw hle, Nat.mod_eq_sub_mod hle]
        rfl

/-- Claim C5: in `DynaFlowRandomVariable.sample_log_prob`, (1) the
`pre_latent` consumed at adjacent-pair index `t+1` is exactly the second half
of the transformed latent pair at index `t`; (2) the code's time loop produces
the pieces of that chain — the first halves of the transformed pairs in time
order, then the final carried `pre_latent` appended untransformed as the last
time step's output; (3) the concatenated output has feature width
`dim * time` (`time = flows.length + 1`) with time step `t` occupying the
columns `[t*dim, (t+1)*dim)` in input order. -/
theorem claim_C5 (dim : ℕ) (hdim : 0 < dim) (flows : List (List PlanarFlow))
    (samples : Tensor2) (log_prob : Tensor1) :
    (∀ t, preAt dim samples flows (t + 1) = tfSliceCols (pairAt dim samples flows t) dim) ∧
      (DynaFlowRandomVariable.sample_pieces dim samples flows 0
          (tfSliceCols samples 0) log_prob).1 =
        (List.range flows.length).map (fun t => tfSliceCols (pairAt dim samples flows t) 0)
          ++ [preAt dim samples flows flows.length] ∧
      ∀ t j d, t < flows.length + 1 → d < dim →
        (DynaFlowRandomVariable.sample_log_prob dim flows samples log_prob).1 j (t * dim + d) =
          (((List.range flows.length).map
              (fun t => tfSliceCols (pairAt dim samples flows t) 0)
            ++ [preAt dim samples flows flows.length]).getD t default) j d := by
  have hpieces :
      (DynaFlowRandomVariable.sample_pieces dim samples flows 0
          (tfSliceCols samples 0) log_prob).1 =
        (List.range flows.length).map (fun t => tfSliceCols (pairAt dim samples flows t) 0)
          ++ [preAt dim samples flows flows.length] := by
    have h0 := sample_pieces_eq dim samples flows flows 0 log_prob rfl
    have hm : (List.range flows.length).map
          (fun t => tfSliceCols (pairAt dim samples flows (0 + t)) 0) =
        (List.range flows.length).map
          (fun t => tfSliceCols (pairAt dim samples flows t) 0) := by
      refine List.map_congr_left fun t _ => ?_
      rw [Nat.zero_add]
    rw [show preAt dim samples flows 0 = tfSliceCols samples 0 from rfl] at h0
    rw [h0, hm, Nat.zero_add]
  refine ⟨fun t => preAt_succ dim samples flows t, hpieces, ?_⟩
  intro t j d ht hd
  have hlen : ((List.range flows.length).map
        (fun t => tfSliceCols (pairAt dim samples flows t) 0)
      ++ [preAt dim samples flows flows.length]).length = flows.length + 1 := by
    simp
  have hbound : t * dim + d < dim * ((List.range flows.length).map
        (fun t => tfSliceCols (pairAt dim samples flows t) 0)
      ++ [preAt dim samples flows flows.length]).length := by
    rw [hlen, Nat.mul_succ]
    have hmul : t * dim ≤ flows.length * dim := Nat.mul_le_mul_right dim (by omega)
    have hcomm : flows.length * dim = dim * flows.length := Nat.mul_comm _ _
    omega
  have hdiv : (t * dim + d) / dim = t := by
    rw [Nat.mul_comm t dim, Nat.mul_add_div hdim, Nat.div_eq_of_lt hd]
    omega
  have hmod : (t * dim + d) % dim = d := by
    rw [Nat.mul_comm t dim, Nat.mul_add_mod, Nat.mod_eq_of_lt hd]
  show tfConcatCols dim (DynaFlowRandomVariable.sample_pieces dim samples flows 0
      (tfSliceCols samples 0) log_prob).1 j (t * dim + d) = _
  rw [hpieces, tfConcatCols_getD dim hdim _ j (t * dim + d) hbound, hdiv, hmod]

/-- Witness for claim C5 at `dim = 1` with a single one-layer time stack. -/
theorem claim_C5_witness :
    (0 : ℕ) < 1 ∧
      ((∀ t, preAt 1 (fun _ _ => 0) [[pfUnit]] (t + 1) =
          tfSliceCols (pairAt 1 (fun _ _ => 0) [[pfUnit]] t) 1) ∧
        (DynaFlowRandomVariable.sample_pieces 1 (fun _ _ => 0) [[pfUnit]] 0
            (tfSliceCols (fun _ _ => 0) 0) (fun _ => 0)).1 =
          (List.range [[pfUnit]].length).map
              (fun t => tfSliceCols (pairAt 1 (fun _ _ => 0) [[pfUnit]] t) 0)
            ++ [preAt 1 (fun _ _ => 0) [[pfUnit]] [[pfUnit]].length] ∧
        ∀ t j d, t < [[pfUnit]].length + 1 → d < 1 →
          (DynaFlowRandomVariable.sample_log_prob 1 [[pfUnit]] (fun _ _ => 0)
              (fun _ => 0)).1 j (t * 1 + d) =
            (((List.range [[pfUnit]].length).map
                (fun t => tfSliceCols (pairAt 1 (fun _ _ => 0) [[pfUnit]] t) 0)
              ++ [preAt 1 (fun _ _ => 0) [[pfUnit]] [[pfUnit]].length]).getD t default) j d) :=
  ⟨by norm_num, claim_C5 1 (by norm_num) [[pfUnit]] (fun _ _ => 0) (fun _ => 0)⟩

/-- Embeds `tf.slice(t, [r0, c0], [-1, len])` on a rank-2 tensor: the block
starting at row `r0`, column `c0` (the extent `len` lives at the shape
level). -/
def tfSlice2 (t : Tensor2) (r0 c0 : ℕ) : Tensor2 := fun r c => t (r0 + r) (c0 + c)

/-- Embeds `FlowConditionalVariable.set_up_flows` (lines 188-211) given the
three flat MLP outputs (the `MultiLayerPerceptron` collaborator is external to
the core, so `all_w`, `all_u`, `all_b` are taken as inputs; by its contract
they have `n_points` rows, the row count of the covariate `y`).  For each
layer `i` the flow is built from
`w = tf.slice(all_w, [0, i*dim_x], [-1, dim_x])`,
`u = tf.slice(all_u, [0, i*dim_x], [-1, dim_x])` and
`b = tf.squeeze(tf.slice(all_b, [0, i], [-1, 1]))`; the constructed
`PlanarFlow`'s `n_flows` is the row count of its `u` parameter, `n_points`. -/
def FlowConditionalVariable.set_up_flows (dim_x flow_layers n_points : ℕ)
    (all_w all_u all_b : Tensor2) : List PlanarFlow :=
  (List.range flow_layers).map fun i =>
    ⟨dim_x, n_points,
     tfSlice2 all_w 0 (i * dim_x),
     fun f => tfSlice2 all_b 0 i f 0,
     tfSlice2 all_u 0 (i * dim_x)⟩

/-- Claim C6: each of the `flow_layers` constructed PlanarFlow layers receives
as its `w` and `u` the `i`-th contiguous width-`dim_x` column chunk of the
corresponding flat MLP output (columns `[i*dim_x, (i+1)*dim_x)`), as its `b`
the `i`-th column of the flat bias output, and has per-example parameters
with `n_flows` equal to the covariate row count `N = n_points`. -/
theorem claim_C6 (dim_x flow_layers n_points : ℕ) (all_w all_u all_b : Tensor2)
    (i : ℕ) (hi : i < flow_layers) :
    (∀ f c, ((FlowConditionalVariable.set_up_flows dim_x flow_layers n_points
        all_w all_u all_b).getD i default).w f c = all_w f (i * dim_x + c)) ∧
      (∀ f c, ((FlowConditionalVariable.set_up_flows dim_x flow_layers n_points
        all_w all_u all_b).getD i default).u f c = all_u f (i * dim_x + c)) ∧
      (∀ f, ((FlowConditionalVariable.set_up_flows dim_x flow_layers n_points
        all_w all_u all_b).getD i default).b f = all_b f i) ∧
      ((FlowConditionalVariable.set_up_flows dim_x flow_layers n_points
        all_w all_u all_b).getD i default).n_flows = n_points := by
  have hlen : i < ((List.range flow_layers).map (fun i =>
      (⟨dim_x, n_points, tfSlice2 all_w 0 (i * dim_x),
        fun f => tfSlice2 all_b 0 i f 0,
        tfSlice2 all_u 0 (i * dim_x)⟩ : PlanarFlow))).length := by
    simpa using hi
  have hflow : (FlowConditionalVariable.set_up_flows dim_x flow_layers n_points
      all_w all_u all_b).getD i default =
        ⟨dim_x, n_points, tfSlice2 all_w 0 (i * dim_x),
          fun f => tfSlice2 all_b 0 i f 0,
          tfSlice2 all_u 0 (i * dim_x)⟩ := by
    rw [FlowConditionalVariable.set_up_flows, List.getD_eq_getElem _ _ hlen]
    rw [List.getElem_map]
    rw [List.getElem_range]
  refine ⟨?_, ?_, ?_, ?_⟩
  · intro f c
    rw [hflow]
    show all_w (0 + f) (i * dim_x + c) = all_w f (i * dim_x + c)
    rw [Nat.zero_add]
  · intro f c
    rw [hflow]
    show all_u (0 + f) (i * dim_x + c) = all_u f (i * dim_x + c)
    rw [Nat.zero_add]
  · intro f
    rw [hflow]
    show all_b (0 + f) (i + 0) = all_b f i
    rw [Nat.zero_add, Nat.add_zero]
  · rw [hflow]

/-- Concrete flat `w` output used by the claim C6 witness. -/
def witAllW : Tensor2 := fun r c => r + c

/-- Concrete flat `u` output used by the claim C6 witness. -/
def witAllU : Tensor2 := fun r c => r * c

/-- Concrete flat `b` output used by the claim C6 witness. -/
def witAllB : Tensor2 := fun r c => r - c

/-- Witness for claim C6: layer 1 of a two-layer conditional setup with
`dim_x = 2` and three covariate rows. -/
theorem claim_C6_witness :
    1 < 2 ∧
      ((∀ f c, ((FlowConditionalVariable.set_up_flows 2 2 3
          witAllW witAllU witAllB).getD 1 default).w f c = witAllW f (1 * 2 + c)) ∧
        (∀ f c, ((FlowConditionalVariable.set_up_flows 2 2 3
          witAllW witAllU witAllB).getD 1 default).u f c = witAllU f (1 * 2 + c)) ∧
        (∀ f, ((FlowConditionalVariable.set_up_flows 2 2 3
          witAllW witAllU witAllB).getD 1 default).b f = witAllB f 1) ∧
        ((FlowConditionalVariable.set_up_flows 2 2 3
          witAllW witAllU witAllB).getD 1 default).n_flows = 3) :=
  ⟨by norm_num, claim_C6 2 2 3 witAllW witAllU witAllB 1 (by norm_num)⟩

/-- Embeds `tf.slice(t, [0, 0, start], [n_example, n, len])` on a rank-3
tensor: columns from `start` on along the last axis. -/
def tfSliceCols3 (t : Tensor3) (start : ℕ) : Tensor3 := fun e j d => t e j (start + d)

/-- Embeds `tf.concat([a, b], axis=2)` of two rank-3 tensors where `a` has
last-axis width `width`. -/
def tfConcatPair3 (width : ℕ) (a b : Tensor3) : Tensor3 :=
  fun e j d => if d < width then a e j d else b e j (d - width)

/-- Embeds `tf.concat(_, axis=2)` of a list of rank-3 tensors of equal
last-axis width `width`. -/
def tfConcatCols3 (width : ℕ) : List Tensor3 → Tensor3
  | [] => fun _ _ _ => 0
  | p :: ps => fun e j d =>
      if d < width then p e j d else tfConcatCols3 width ps e j (d - width)

/-- Embeds the inner layer loop of the `n_example > 1` branch of
`DynaFlowConditionalRandomVariable.sample_log_prob` (lines 382-384); the flows
are multi-flow (one parameter row per example), so the multi-flow branches of
`log_det_jacobian` and `transform` are taken. -/
def applyTimeFlowM : List PlanarFlow → Tensor3 → Tensor2 → Tensor3 × Tensor2
  | [], pair, log_prob => (pair, log_prob)
  | f :: rest, pair, log_prob =>
      applyTimeFlowM rest (f.transform_multi pair)
        (fun e j => log_prob e j + f.log_det_jacobian_multi pair e j)

/-- Embeds the time loop of the `n_example > 1` branch of
`DynaFlowConditionalRandomVariable.sample_log_prob` (lines 374-391), the
rank-3 counterpart of `DynaFlowRandomVariable.sample_pieces`. -/
def DynaFlowConditionalRandomVariable.sample_pieces_multi (dim : ℕ) (samples : Tensor3) :
    List (List PlanarFlow) → ℕ → Tensor3 → Tensor2 → List Tensor3 × Tensor2
  | [], _i, pre_latent, log_prob => ([pre_latent], log_prob)
  | time_flow :: rest, i, pre_latent, log_prob =>
      let cur_latent := tfSliceCols3 samples ((i + 1) * dim)
      let res := applyTimeFlowM time_flow (tfConcatPair3 dim pre_latent cur_latent) log_prob
      let tail := DynaFlowConditionalRandomVariable.sample_pieces_multi dim samples rest (i + 1)
        (tfSliceCols3 res.1 dim) res.2
      (tfSliceCols3 res.1 0 :: tail.1, tail.2)

/-- Embeds the `n_example > 1` branch of
`DynaFlowConditionalRandomVariable.sample_log_prob` (lines 370-394) given the
joint base sample (leading per-example axis) and its summed base
log-density. -/
def DynaFlowConditionalRandomVariable.sample_log_prob_multi (dim : ℕ)
    (flows : List (List PlanarFlow)) (samples : Tensor3) (log_prob : Tensor2) :
    Tensor3 × Tensor2 :=
  let res := DynaFlowConditionalRandomVariable.sample_pieces_multi dim samples flows 0
    (tfSliceCols3 samples 0) log_prob
  (tfConcatCols3 dim res.1, res.2)

/-- Embeds the `n_example == 1` branch of
`DynaFlowConditionalRandomVariable.sample_log_prob` (lines 345-369).  That
branch is statement-for-statement the body of
`DynaFlowRandomVariable.sample_log_prob` (lines 240-265), so it is embedded by
the same function. -/
def DynaFlowConditionalRandomVariable.sample_log_prob_single (dim : ℕ)
    (flows : List (List PlanarFlow)) (samples : Tensor2) (log_prob : Tensor1) :
    Tensor2 × Tensor1 :=
  DynaFlowRandomVariable.sample_log_prob dim flows samples log_prob

/-- Restriction of a multi-flow PlanarFlow to the parameter row of example
`e`, as a single-flow PlanarFlow. -/
def PlanarFlow.row (pf : PlanarFlow) (e : ℕ) : PlanarFlow :=
  ⟨pf.dim, 1, fun _ d => pf.w e d, fun _ => pf.b e, fun _ d => pf.u e d⟩

lemma transform_multi_row (pf : PlanarFlow) (x : Tensor3) (e : ℕ) :
    pf.transform_multi x e = (pf.row e).transform_single (x e) := by
  funext j d
  rfl

lemma log_det_jacobian_multi_row (pf : PlanarFlow) (x : Tensor3) (e : ℕ) :
    pf.log_det_jacobian_multi x e = (pf.row e).log_det_jacobian_single (x e) := by
  funext j
  rfl

lemma applyTimeFlowM_row (stack : List PlanarFlow) :
    ∀ (pair : Tensor3) (log_prob : Tensor2) (e : ℕ),
      (applyTimeFlowM stack pair log_prob).1 e =
          (applyTimeFlow (stack.map (fun f => f.row e)) (pair e) (log_prob e)).1 ∧
        (applyTimeFlowM stack pair log_prob).2 e =
          (applyTimeFlow (stack.map (fun f => f.row e)) (pair e) (log_prob e)).2 := by
  induction stack with
  | nil => intro pair lp e; exact ⟨rfl, rfl⟩
  | cons f rest ih =>
      intro pair lp e
      have h := ih (f.transform_multi pair)
        (fun e j => lp e j + f.log_det_jacobian_multi pair e j) e
      rw [transform_multi_row] at h
      refine ⟨?_, ?_⟩
      · rw [show (applyTimeFlowM (f :: rest) pair lp).1 =
            (applyTimeFlowM rest (f.transform_multi pair)
              (fun e j => lp e j + f.log_det_jacobian_multi pair e j)).1 from rfl, h.1]
        rfl
      · rw [show (applyTimeFlowM (f :: rest) pair lp).2 =
            (applyTimeFlowM rest (f.transform_multi pair)
              (fun e j => lp e j + f.log_det_jacobian_multi pair e j)).2 from rfl, h.2]
        rfl

lemma sample_pieces_multi_row (dim : ℕ) (samples : Tensor3) :
    ∀ (fs : List (List PlanarFlow)) (i : ℕ) (pre : Tensor3) (log_prob : Tensor2) (e : ℕ),
      ((DynaFlowConditionalRandomVariable.sample_pieces_multi dim samples fs i
          pre log_prob).1).map (fun t => t e) =
          (DynaFlowRandomVariable.sample_pieces dim (samples e)
            (fs.map (List.map (fun f => f.row e))) i (pre e) (log_prob e)).1 ∧
        (DynaFlowConditionalRandomVariable.sample_pieces_multi dim samples fs i
          pre log_prob).2 e =
          (DynaFlowRandomVariable.sample_pieces dim (samples e)
            (fs.map (List.map (fun f => f.row e))) i (pre e) (log_prob e)).2 := by
  intro fs
  induction fs with
  | nil => intro i pre lp e; exact ⟨rfl, rfl⟩
  | cons stack rest ih =>
      intro i pre lp e
      have hstack := applyTimeFlowM_row stack
        (tfConcatPair3 dim pre (tfSliceCols3 samples ((i + 1) * dim))) lp e
      have hpair : (tfConcatPair3 dim pre (tfSliceCols3 samples ((i + 1) * dim))) e =
          tfConcatPair dim (pre e) (tfSliceCols (samples e) ((i + 1) * dim)) := rfl
      rw [hpair] at hstack
      have htail := ih (i + 1)
        (tfSliceCols3 (applyTimeFlowM stack
          (tfConcatPair3 dim pre (tfSliceCols3 samples ((i + 1) * dim))) lp).1 dim)
        (applyTimeFlowM stack
          (tfConcatPair3 dim pre (tfSliceCols3 samples ((i + 1) * dim))) lp).2 e
      have hslice : (tfSliceCols3 (applyTimeFlowM stack
          (tfConcatPair3 dim pre (tfSliceCols3 samples ((i + 1) * dim))) lp).1 dim) e =
          tfSliceCols ((applyTimeFlowM stack
            (tfConcatPair3 dim pre (tfSliceCols3 samples ((i + 1) * dim))) lp).1 e) dim := rfl
      rw [hslice, hstack.1, hstack.2] at htail
      refine ⟨?_, htail.2⟩
      show (tfSliceCols3 (applyTimeFlowM stack
          (tfConcatPair3 dim pre (tfSliceCols3 samples ((i + 1) * dim))) lp).1 0) e ::
        ((DynaFlowConditionalRandomVariable.sample_pieces_multi dim samples rest (i + 1)
          (tfSliceCols3 (applyTimeFlowM stack
            (tfConcatPair3 dim pre (tfSliceCols3 samples ((i + 1) * dim))) lp).1 dim)
          (applyTimeFlowM stack
            (tfConcatPair3 dim pre (tfSliceCols3 samples ((i + 1) * dim))) lp).2).1).map
          (fun t => t e) = _
      rw [htail.1]
      have hhead : (tfSliceCols3 (applyTimeFlowM stack
          (tfConcatPair3 dim pre (tfSliceCols3 samples ((i + 1) * dim))) lp).1 0) e =
          tfSliceCols ((applyTimeFlow (stack.map (fun f => f.row e))
            (tfConcatPair dim (pre e) (tfSliceCols (samples e) ((i + 1) * dim)))
            (lp e)).1) 0 := by
        show tfSliceCols ((applyTimeFlowM stack
            (tfConcatPair3 dim pre (tfSliceCols3 samples ((i + 1) * dim))) lp).1 e) 0 = _
        rw [hstack.1]
      rw [hhead]
      rfl

lemma tfConcatCols3_row (width : ℕ) :
    ∀ (ps : List Tensor3) (e : ℕ),
      tfConcatCols3 width ps e = tfConcatCols width (ps.map (fun t => t e)) := by
  intro ps
  induction ps with
  | nil => intro e; rfl
  | cons p ps ih =>
      intro e
      funext j d
      show (if d < width then p e j d else tfConcatCols3 width ps e j (d - width)) = _
      rw [ih e]
      rfl

/-- Claim C9: the two evaluation regimes of
`DynaFlowConditionalRandomVariable.sample_log_prob` compute the same chain
algorithm as `DynaFlowRandomVariable.sample_log_prob`.  The `n_example == 1`
branch is that algorithm verbatim, and the `n_example > 1` branch, projected
onto any example index `e`, equals the single-example algorithm run on
example `e`'s parameter rows, samples and base log-density — identical
per-pair concatenation, per-layer log-det accumulation and transform,
carry-forward of the second half, and final concatenation, differing only in
the leading per-example axis. -/
theorem claim_C9 (dim : ℕ) (flows : List (List PlanarFlow)) :
    (∀ (samples : Tensor2) (log_prob : Tensor1),
      DynaFlowConditionalRandomVariable.sample_log_prob_single dim flows samples log_prob =
        DynaFlowRandomVariable.sample_log_prob dim flows samples log_prob) ∧
    ∀ (samples : Tensor3) (log_prob : Tensor2) (e : ℕ),
      (DynaFlowConditionalRandomVariable.sample_log_prob_multi dim flows
          samples log_prob).1 e =
        (DynaFlowRandomVariable.sample_log_prob dim
          (flows.map (List.map (fun f => f.row e))) (samples e) (log_prob e)).1 ∧
      (DynaFlowConditionalRandomVariable.sample_log_prob_multi dim flows
          samples log_prob).2 e =
        (DynaFlowRandomVariable.sample_log_prob dim
          (flows.map (List.map (fun f => f.row e))) (samples e) (log_prob e)).2 := by
  refine ⟨fun samples log_prob => rfl, ?_⟩
  intro samples log_prob e
  have h := sample_pieces_multi_row dim samples flows 0 (tfSliceCols3 samples 0) log_prob e
  have hpre : (tfSliceCols3 samples 0) e = tfSliceCols (samples e) 0 := rfl
  rw [hpre] at h
  constructor
  · show tfConcatCols3 dim (DynaFlowConditionalRandomVariable.sample_pieces_multi dim
        samples flows 0 (tfSliceCols3 samples 0) log_prob).1 e = _
    rw [tfConcatCols3_row, h.1]
    rfl
  · exact h.2

end

end NormalizingFlow
